import Mathlib

/-!
Verification of the `dtn-tcpcl` Contact Header codec (`src/lib.rs`).

The development shallowly embeds the Rust code: byte buffers are `List Nat`
(every element a byte value), the `nom` 3.x parse result type `IResult` is the
inductive `IRes` below (with an extra `panicked` outcome modelling a Rust
panic reachable from `String::from_utf8(..).unwrap()`), and the struct
`ContactHeader` is a Lean structure over `Nat` fields.
-/

namespace Tcpcl

/-- Magic Bytes of the Contact Header (`HEADER_MAGIC` in the source): `dtn!`. -/
def HEADER_MAGIC : List Nat := [0x64, 0x74, 0x6e, 0x21]

/-- `CONTACT_HEADER_BASE_LENGTH` in the source ("Length of Contact Header up to the eid"). -/
def CONTACT_HEADER_BASE_LENGTH : Nat := 24

/-- The bitflags struct `ContactHeaderFlags` (a `u8`-backed flag set). -/
structure ContactHeaderFlags where
  bits : Nat
  deriving DecidableEq, Repr

/-- The single defined flag `CAN_TLS = 0x01`. -/
def CAN_TLS : ContactHeaderFlags := ⟨0x01⟩

/-- `ContactHeaderFlags::empty()`. -/
def ContactHeaderFlags.empty : ContactHeaderFlags := ⟨0⟩

/-- `ContactHeaderFlags::from_bits`: fails when a bit outside `CAN_TLS` is set.
In `u8` arithmetic `!CAN_TLS.bits = 0xFE`, so the bitflags test
`bits & !all != 0` is `bits &&& 0xFE ≠ 0`. -/
def ContactHeaderFlags.from_bits (b : Nat) : Option ContactHeaderFlags :=
  if b &&& 0xFE ≠ 0 then none else some ⟨b⟩

/-- `ContactHeaderFlags::from_bits_strict`. -/
def ContactHeaderFlags.from_bits_strict (b : Nat) : Except String ContactHeaderFlags :=
  match ContactHeaderFlags.from_bits b with
  | some f => .ok f
  | none => .error "unknown bitflags detected"

/-- The struct `ContactHeader`.  A Rust `String` is embedded as its UTF-8 byte
list, so `eid : Option String` becomes `Option (List Nat)`. -/
structure ContactHeader where
  version : Nat
  flags : ContactHeaderFlags
  keepalive : Nat
  segment_mru : Nat
  transfer_mru : Nat
  eid : Option (List Nat)
  deriving DecidableEq, Repr

/-- `ContactHeader::new()`. -/
def ContactHeader.new : ContactHeader :=
  { version := 4
    flags := ContactHeaderFlags.empty
    keepalive := 0
    segment_mru := 0
    transfer_mru := 0
    eid := none }

/-- `ContactHeader::eid` (the setter; renamed because `eid` is already the
field accessor in Lean).  The Rust method mutates `&mut self` and returns
`io::Result<&mut Self>`; the embedding passes the state explicitly and returns
the error outcome together with the state after the call. -/
def ContactHeader.setEid (self : ContactHeader) (eid : List Nat) :
    Except String Unit × ContactHeader :=
  if eid.length > 65535 then (.error "eid to long", self)
  else (.ok (), { self with eid := some eid })

/-- `ContactHeader::flags` (setter). -/
def ContactHeader.setFlags (self : ContactHeader) (flags : ContactHeaderFlags) : ContactHeader :=
  { self with flags := flags }

/-- `ContactHeader::keepalive` (setter). -/
def ContactHeader.setKeepalive (self : ContactHeader) (keepalive : Nat) : ContactHeader :=
  { self with keepalive := keepalive }

/-- `ContactHeader::segment_mru` (setter). -/
def ContactHeader.setSegmentMru (self : ContactHeader) (segment_mru : Nat) : ContactHeader :=
  { self with segment_mru := segment_mru }

/-- `ContactHeader::transfer_mru` (setter). -/
def ContactHeader.setTransferMru (self : ContactHeader) (transfer_mru : Nat) : ContactHeader :=
  { self with transfer_mru := transfer_mru }

/-- `ContactHeader::set_flag` (`bitflags` insert: bitwise or). -/
def ContactHeader.set_flag (self : ContactHeader) (flag : ContactHeaderFlags) : ContactHeader :=
  { self with flags := ⟨self.flags.bits ||| flag.bits⟩ }

/-- `ContactHeader::unset_flag` (`bitflags` remove: `bits &= !other.bits` in `u8`). -/
def ContactHeader.unset_flag (self : ContactHeader) (flag : ContactHeaderFlags) : ContactHeader :=
  { self with flags := ⟨self.flags.bits &&& (0xFF ^^^ flag.bits)⟩ }

/-- `ContactHeader::clear_flags`. -/
def ContactHeader.clear_flags (self : ContactHeader) : ContactHeader :=
  { self with flags := ContactHeaderFlags.empty }

/-- Big-endian bytes of a `u16` as written by `byteorder`'s
`write_u16::<BigEndian>` (each byte taken mod 256, exact for values < 2^16). -/
def u16be (n : Nat) : List Nat := [n / 2 ^ 8 % 256, n % 256]

/-- Big-endian bytes of a `u64` as written by `write_u64::<BigEndian>`. -/
def u64be (n : Nat) : List Nat :=
  [n / 2 ^ 56 % 256, n / 2 ^ 48 % 256, n / 2 ^ 40 % 256, n / 2 ^ 32 % 256,
   n / 2 ^ 24 % 256, n / 2 ^ 16 % 256, n / 2 ^ 8 % 256, n % 256]

/-- `ContactHeader::serialize`.  The source asserts `eid.len() <= u16::MAX`
before casting the length to `u16`; the embedding keeps the cast's truncation
(`u16be` reduces each byte mod 256), which agrees with the source whenever
that assertion holds. -/
def ContactHeader.serialize (self : ContactHeader) : List Nat :=
  HEADER_MAGIC ++ [self.version % 256] ++ [self.flags.bits % 256] ++
    u16be self.keepalive ++ u64be self.segment_mru ++ u64be self.transfer_mru ++
    (match self.eid with
     | some eid => u16be eid.length ++ eid
     | none => u16be 0)

/-- `nom::Needed` (3.x). -/
inductive Needed where
  | unknown : Needed
  | size : Nat → Needed
  deriving DecidableEq, Repr

/-- `nom::IResult` (3.x: `Done`/`Error`/`Incomplete`), extended with a
`panicked` outcome that models a Rust panic raised while parsing (the
`String::from_utf8(..).unwrap()` in `parse_eid`). -/
inductive IRes (α : Type) where
  | done : List Nat → α → IRes α
  | err : IRes α
  | incomplete : Needed → IRes α
  | panicked : IRes α
  deriving DecidableEq, Repr

/-- Whether a parse outcome is `Incomplete`. -/
def IRes.isIncomplete {α : Type} : IRes α → Bool
  | .incomplete _ => true
  | _ => false

/-- `nom::be_u8`. -/
def be_u8 : List Nat → IRes Nat
  | [] => .incomplete (.size 1)
  | b :: rest => .done rest b

/-- `nom::be_u16` (big-endian). -/
def be_u16 : List Nat → IRes Nat
  | b0 :: b1 :: rest => .done rest (b0 * 256 + b1)
  | _ => .incomplete (.size 2)

/-- `nom::be_u64` (big-endian). -/
def be_u64 : List Nat → IRes Nat
  | b0 :: b1 :: b2 :: b3 :: b4 :: b5 :: b6 :: b7 :: rest =>
      .done rest (b0 * 2 ^ 56 + b1 * 2 ^ 48 + b2 * 2 ^ 40 + b3 * 2 ^ 32 +
        b4 * 2 ^ 24 + b5 * 2 ^ 16 + b6 * 2 ^ 8 + b7)
  | _ => .incomplete (.size 8)

/-- `tag!(HEADER_MAGIC)`: nom compares the first `min(input, tag)` bytes;
a mismatch there is an `Error`, a proper prefix of the tag is `Incomplete`. -/
def tagMagic (i : List Nat) : IRes (List Nat) :=
  if i.take HEADER_MAGIC.length = HEADER_MAGIC.take i.length then
    if i.length < HEADER_MAGIC.length then .incomplete (.size HEADER_MAGIC.length)
    else .done (i.drop HEADER_MAGIC.length) (i.take HEADER_MAGIC.length)
  else .err

/-- `take!(n)`. -/
def takeBytes (n : Nat) (i : List Nat) : IRes (List Nat) :=
  if i.length < n then .incomplete (.size n) else .done (i.drop n) (i.take n)

/-- `map_opt!`: run the parser, then fail (`ErrorKind::MapOpt`) when the
function returns `None`. -/
def mapOpt {α β : Type} (p : List Nat → IRes α) (f : α → Option β) (i : List Nat) : IRes β :=
  match p i with
  | .done rest a =>
    match f a with
    | some b => .done rest b
    | none => .err
  | .err => .err
  | .incomplete n => .incomplete n
  | .panicked => .panicked

/-- `do_parse!` adds the bytes consumed so far to a sub-parser's
`Needed::Size`. -/
def neededAdd (c : Nat) : Needed → Needed
  | .unknown => .unknown
  | .size n => .size (c + n)

/-- The `version` parser: `map_opt!(be_u8, ...)` accepting only `0x04`. -/
def version (i : List Nat) : IRes Nat :=
  mapOpt be_u8 (fun x => if x = 0x04 then some 0x04 else none) i

/-- The `header_flags` parser: `map_opt!(be_u8, ContactHeaderFlags::from_bits)`. -/
def header_flags (i : List Nat) : IRes ContactHeaderFlags :=
  mapOpt be_u8 ContactHeaderFlags.from_bits i

/-- A UTF-8 continuation byte (`0x80..=0xBF`). -/
def isCont (b : Nat) : Bool := 0x80 ≤ b && b ≤ 0xBF

/-- Validity of a byte list as UTF-8, exactly the check performed by Rust's
`String::from_utf8` (RFC 3629: no overlong forms, no surrogates, max
`U+10FFFF`). -/
def validUtf8 : List Nat → Bool
  | [] => true
  | b :: rest =>
    if b ≤ 0x7F then validUtf8 rest
    else if 0xC2 ≤ b && b ≤ 0xDF then
      match rest with
      | c1 :: r => isCont c1 && validUtf8 r
      | [] => false
    else if b = 0xE0 then
      match rest with
      | c1 :: c2 :: r => (0xA0 ≤ c1 && c1 ≤ 0xBF) && isCont c2 && validUtf8 r
      | _ => false
    else if (0xE1 ≤ b && b ≤ 0xEC) || b = 0xEE || b = 0xEF then
      match rest with
      | c1 :: c2 :: r => isCont c1 && isCont c2 && validUtf8 r
      | _ => false
    else if b = 0xED then
      match rest with
      | c1 :: c2 :: r => (0x80 ≤ c1 && c1 ≤ 0x9F) && isCont c2 && validUtf8 r
      | _ => false
    else if b = 0xF0 then
      match rest with
      | c1 :: c2 :: c3 :: r =>
          (0x90 ≤ c1 && c1 ≤ 0xBF) && isCont c2 && isCont c3 && validUtf8 r
      | _ => false
    else if 0xF1 ≤ b && b ≤ 0xF3 then
      match rest with
      | c1 :: c2 :: c3 :: r => isCont c1 && isCont c2 && isCont c3 && validUtf8 r
      | _ => false
    else if b = 0xF4 then
      match rest with
      | c1 :: c2 :: c3 :: r =>
          (0x80 ≤ c1 && c1 ≤ 0x8F) && isCont c2 && isCont c3 && validUtf8 r
      | _ => false
    else false

/-- `String::from_utf8` on the byte-list embedding of strings: succeeds, with
the same bytes, exactly on valid UTF-8. -/
def from_utf8 (bs : List Nat) : Option (List Nat) :=
  if validUtf8 bs then some bs else none

/-- The `parse_eid` parser (`do_parse!`): a big-endian `u16` length, that many
raw bytes, `None` for length 0, otherwise `String::from_utf8(..).unwrap()` —
the `unwrap` panics on invalid UTF-8, modelled by `panicked`. -/
def parse_eid (i : List Nat) : IRes (Option (List Nat)) :=
  match be_u16 i with
  | .err => .err
  | .incomplete n => .incomplete (neededAdd 0 n)
  | .panicked => .panicked
  | .done i1 size =>
    match takeBytes size i1 with
    | .err => .err
    | .incomplete n => .incomplete (neededAdd (i.length - i1.length) n)
    | .panicked => .panicked
    | .done i2 raw_eid =>
      match size with
      | 0 => .done i2 none
      | _ + 1 =>
        match from_utf8 raw_eid with
        | some s => .done i2 (some s)
        | none => .panicked

/-- The `contact_header` parser (`do_parse!` of the sub-parsers above),
which `ContactHeader::deserialize` delegates to. -/
def contact_header (i : List Nat) : IRes ContactHeader :=
  match tagMagic i with
  | .err => .err
  | .incomplete n => .incomplete (neededAdd 0 n)
  | .panicked => .panicked
  | .done i1 _ =>
    match version i1 with
    | .err => .err
    | .incomplete n => .incomplete (neededAdd (i.length - i1.length) n)
    | .panicked => .panicked
    | .done i2 v =>
      match header_flags i2 with
      | .err => .err
      | .incomplete n => .incomplete (neededAdd (i.length - i2.length) n)
      | .panicked => .panicked
      | .done i3 fl =>
        match be_u16 i3 with
        | .err => .err
        | .incomplete n => .incomplete (neededAdd (i.length - i3.length) n)
        | .panicked => .panicked
        | .done i4 keepalive =>
          match be_u64 i4 with
          | .err => .err
          | .incomplete n => .incomplete (neededAdd (i.length - i4.length) n)
          | .panicked => .panicked
          | .done i5 segment_mru =>
            match be_u64 i5 with
            | .err => .err
            | .incomplete n => .incomplete (neededAdd (i.length - i5.length) n)
            | .panicked => .panicked
            | .done i6 transfer_mru =>
              match parse_eid i6 with
              | .err => .err
              | .incomplete n => .incomplete (neededAdd (i.length - i6.length) n)
              | .panicked => .panicked
              | .done i7 eid =>
                .done i7
                  { version := v
                    flags := fl
                    keepalive := keepalive
                    segment_mru := segment_mru
                    transfer_mru := transfer_mru
                    eid := eid }

/-- `ContactHeader::deserialize`. -/
def ContactHeader.deserialize (i : List Nat) : IRes ContactHeader :=
  contact_header i

/-- The headers reachable through the public builder: `new()` fixes
`version = 4`; `flags` only ever holds subsets of the known enumeration
(`bits ≤ 1`); `keepalive`, `segment_mru`, `transfer_mru` range over their
machine-integer types; the eid setter accepts any Rust `String` (valid UTF-8)
of at most 65535 bytes. -/
def BuilderBuilt (h : ContactHeader) : Prop :=
  h.version = 4 ∧ h.flags.bits ≤ 1 ∧ h.keepalive < 2 ^ 16 ∧
  h.segment_mru < 2 ^ 64 ∧ h.transfer_mru < 2 ^ 64 ∧
  (match h.eid with
   | none => True
   | some s => validUtf8 s = true ∧ s.length ≤ 65535)

/-- The endpoint-id length field of a raw buffer: the big-endian `u16` at
offsets 24–25. -/
def eidFieldLen (i : List Nat) : Nat := i.getD 24 0 * 256 + i.getD 25 0

instance (h : ContactHeader) : Decidable (BuilderBuilt h) := by
  unfold BuilderBuilt
  cases h.eid <;> exact inferInstance

/-- The concrete scenario header from the spec: flags `CAN_TLS`,
keepalive 300, segment MRU 4096, transfer MRU 1048576, eid `localhost`. -/
def specHeader : ContactHeader :=
  { version := 4
    flags := CAN_TLS
    keepalive := 300
    segment_mru := 4096
    transfer_mru := 1048576
    eid := some [0x6c, 0x6f, 0x63, 0x61, 0x6c, 0x68, 0x6f, 0x73, 0x74] }

/-- The minimal 26-byte wire message: empty flags, zero values, length field 0. -/
def minimalMsg : List Nat :=
  [0x64, 0x74, 0x6e, 0x21, 0x04, 0x00, 0, 0, 0, 0, 0, 0, 0, 0, 0, 0,
   0, 0, 0, 0, 0, 0, 0, 0, 0, 0]

/-- A buffer with a well-formed fixed part, endpoint-id length field 1, whose
single endpoint-id byte `0xFF` is not valid UTF-8. -/
def badUtf8Msg : List Nat :=
  [0x64, 0x74, 0x6e, 0x21, 0x04, 0x00, 0, 0, 0, 0, 0, 0, 0, 0, 0, 0,
   0, 0, 0, 0, 0, 0, 0, 0, 0, 1, 0xFF]

/-- An endpoint id of 65536 bytes (one more than fits in the length field). -/
def longEid : List Nat := List.replicate 65536 0x61

/-! ## Forward computation lemmas: the parsers on well-formed input -/

theorem tagMagic_append (r : List Nat) : tagMagic (HEADER_MAGIC ++ r) = .done r HEADER_MAGIC := by
  simp [tagMagic, HEADER_MAGIC, List.take_succ_cons, List.take_of_length_le]

theorem version_cons (r : List Nat) : version (4 :: r) = .done r 4 := by
  simp [version, mapOpt, be_u8]

theorem header_flags_cons {b : Nat} (hb : b &&& 0xFE = 0) (r : List Nat) :
    header_flags (b :: r) = .done r ⟨b⟩ := by
  simp [header_flags, mapOpt, be_u8, ContactHeaderFlags.from_bits, hb]

theorem be_u16_append {n : Nat} (hn : n < 2 ^ 16) (r : List Nat) :
    be_u16 (u16be n ++ r) = .done r n := by
  have h : n / 2 ^ 8 % 256 * 256 + n % 256 = n := by omega
  simp only [u16be, List.cons_append, List.nil_append, be_u16, h]

theorem be_u64_append {n : Nat} (hn : n < 2 ^ 64) (r : List Nat) :
    be_u64 (u64be n ++ r) = .done r n := by
  have h : n / 2 ^ 56 % 256 * 2 ^ 56 + n / 2 ^ 48 % 256 * 2 ^ 48 + n / 2 ^ 40 % 256 * 2 ^ 40 +
      n / 2 ^ 32 % 256 * 2 ^ 32 + n / 2 ^ 24 % 256 * 2 ^ 24 + n / 2 ^ 16 % 256 * 2 ^ 16 +
      n / 2 ^ 8 % 256 * 2 ^ 8 + n % 256 = n := by omega
  simp only [u64be, List.cons_append, List.nil_append, be_u64]
  rw [h]

theorem parse_eid_zero (r : List Nat) : parse_eid (0 :: 0 :: r) = .done r none := by
  simp [parse_eid, be_u16, takeBytes]

theorem parse_eid_some {s : List Nat} (hne : s ≠ []) (hlen : s.length ≤ 65535)
    (hv : validUtf8 s = true) (r : List Nat) :
    parse_eid (u16be s.length ++ (s ++ r)) = .done r (some s) := by
  have h16 : s.length < 2 ^ 16 := by omega
  obtain ⟨k, hk⟩ : ∃ k, s.length = k + 1 := by
    cases s with
    | nil => exact absurd rfl hne
    | cons a l => exact ⟨l.length, rfl⟩
  unfold parse_eid
  rw [be_u16_append h16]
  have hlen2 : ¬ (s ++ r).length < s.length := by simp
  simp only [takeBytes, if_neg hlen2, List.take_left, List.drop_left, hk]
  simp [from_utf8, hv, ← hk]

theorem contact_header_fixed {fb kp sm tm : Nat} (hf : fb &&& 0xFE = 0)
    (hk : kp < 2 ^ 16) (hs : sm < 2 ^ 64) (ht : tm < 2 ^ 64) (rest : List Nat) :
    contact_header (HEADER_MAGIC ++ 4 :: fb :: (u16be kp ++ (u64be sm ++ (u64be tm ++ rest)))) =
      match parse_eid rest with
      | .done r e => .done r { version := 4, flags := ⟨fb⟩, keepalive := kp,
                               segment_mru := sm, transfer_mru := tm, eid := e }
      | .err => .err
      | .incomplete n => .incomplete (neededAdd 24 n)
      | .panicked => .panicked := by
  unfold contact_header
  simp only [tagMagic_append, version_cons, header_flags_cons hf, be_u16_append hk,
    be_u64_append hs, be_u64_append ht]
  have hlen : (HEADER_MAGIC ++ 4 :: fb :: (u16be kp ++ (u64be sm ++ (u64be tm ++ rest)))).length
      - rest.length = 24 := by
    simp [HEADER_MAGIC, u16be, u64be]
    omega
  rw [hlen]
  cases parse_eid rest <;> rfl

/-- Decoding the serialization of any builder-reachable header succeeds,
consumes the whole buffer, and returns the header with a present-but-empty
endpoint id collapsed to `none` (serialization writes length 0 for both). -/
theorem roundtrip_general (h : ContactHeader) (hb : BuilderBuilt h) :
    contact_header h.serialize =
      .done [] { h with eid := if h.eid = some [] then none else h.eid } := by
  obtain ⟨v, ⟨fb⟩, kp, sm, tm, e⟩ := h
  obtain ⟨hv, hfb, hk, hs, ht, he⟩ := hb
  dsimp only at hv hfb hk hs ht he ⊢
  subst hv
  have hfb2 : fb % 256 = fb := Nat.mod_eq_of_lt (by omega)
  have hf : fb &&& 0xFE = 0 := by
    interval_cases fb <;> decide
  simp only [ContactHeader.serialize, hfb2, Nat.reduceMod, List.append_assoc,
    List.singleton_append, List.cons_append, List.nil_append]
  rw [contact_header_fixed hf hk hs ht]
  match e with
  | none =>
    simp [u16be, parse_eid_zero]
  | some [] =>
    simp [u16be, parse_eid_zero]
  | some (a :: l) =>
    obtain ⟨hv8, hl⟩ := he
    have hp := parse_eid_some (s := a :: l) (by simp) hl hv8 []
    rw [List.append_nil] at hp
    rw [hp]
    simp

/-! ## Inversion lemmas: what a successful parse says about the input -/

theorem be_u8_done_inv {i r : List Nat} {b : Nat} (H : be_u8 i = .done r b) : i = b :: r := by
  cases i with
  | nil => exact absurd H (by simp [be_u8])
  | cons a l =>
    simp only [be_u8, IRes.done.injEq] at H
    simp [H.1, H.2]

theorem be_u16_done_inv {i r : List Nat} {v : Nat} (H : be_u16 i = .done r v) :
    ∃ b0 b1, i = b0 :: b1 :: r ∧ v = b0 * 256 + b1 := by
  rcases i with _ | ⟨b0, _ | ⟨b1, rest⟩⟩ <;> simp [be_u16] at H
  exact ⟨b0, b1, by simp [H.1], H.2.symm⟩

theorem be_u64_done_inv {i r : List Nat} {v : Nat} (H : be_u64 i = .done r v) :
    ∃ b0 b1 b2 b3 b4 b5 b6 b7, i = b0 :: b1 :: b2 :: b3 :: b4 :: b5 :: b6 :: b7 :: r ∧
      v = b0 * 2 ^ 56 + b1 * 2 ^ 48 + b2 * 2 ^ 40 + b3 * 2 ^ 32 +
        b4 * 2 ^ 24 + b5 * 2 ^ 16 + b6 * 2 ^ 8 + b7 := by
  rcases i with _ | ⟨b0, _ | ⟨b1, _ | ⟨b2, _ | ⟨b3, _ | ⟨b4, _ | ⟨b5, _ | ⟨b6, _ | ⟨b7, rest⟩⟩⟩⟩⟩⟩⟩⟩ <;>
    simp [be_u64] at H
  exact ⟨b0, b1, b2, b3, b4, b5, b6, b7, by simp [H.1], H.2.symm⟩

theorem tagMagic_done_inv {i r o : List Nat} (H : tagMagic i = .done r o) :
    i = HEADER_MAGIC ++ r := by
  unfold tagMagic at H
  by_cases hc : i.take HEADER_MAGIC.length = HEADER_MAGIC.take i.length
  · rw [if_pos hc] at H
    by_cases hl : i.length < HEADER_MAGIC.length
    · rw [if_pos hl] at H
      exact absurd H (by simp)
    · rw [if_neg hl] at H
      have h1 : HEADER_MAGIC.take i.length = HEADER_MAGIC := List.take_of_length_le (by omega)
      simp only [IRes.done.injEq] at H
      obtain ⟨hr, _⟩ := H
      conv_lhs => rw [← List.take_append_drop HEADER_MAGIC.length i]
      rw [hc, h1, hr]
  · rw [if_neg hc] at H
    exact absurd H (by simp)

theorem takeBytes_done_inv {n : Nat} {i r o : List Nat} (H : takeBytes n i = .done r o) :
    o.length = n ∧ i = o ++ r := by
  unfold takeBytes at H
  by_cases hl : i.length < n
  · rw [if_pos hl] at H
    exact absurd H (by simp)
  · rw [if_neg hl] at H
    simp only [IRes.done.injEq] at H
    obtain ⟨hr, ho⟩ := H
    subst hr
    subst ho
    refine ⟨by simp [List.length_take]; omega, (List.take_append_drop n i).symm⟩

theorem mapOpt_done_inv {α β : Type} {p : List Nat → IRes α} {f : α → Option β}
    {i r : List Nat} {b : β} (H : mapOpt p f i = .done r b) :
    ∃ a, p i = .done r a ∧ f a = some b := by
  unfold mapOpt at H
  cases hp : p i <;> simp [hp] at H
  case done rest a =>
    cases hf : f a <;> simp [hf] at H
    case some b2 =>
      obtain ⟨hr, hb⟩ := H
      subst hr
      subst hb
      exact ⟨a, rfl, hf⟩

theorem version_done_inv {i r : List Nat} {v : Nat} (H : version i = .done r v) :
    i = 4 :: r ∧ v = 4 := by
  obtain ⟨a, hp, hf⟩ := mapOpt_done_inv H
  by_cases ha : a = 4
  · subst ha
    simp at hf
    exact ⟨be_u8_done_inv hp, hf.symm⟩
  · simp [ha] at hf

theorem header_flags_done_inv {i r : List Nat} {fl : ContactHeaderFlags}
    (H : header_flags i = .done r fl) :
    i = fl.bits :: r ∧ fl.bits &&& 0xFE = 0 := by
  obtain ⟨a, hp, hf⟩ := mapOpt_done_inv H
  unfold ContactHeaderFlags.from_bits at hf
  by_cases ha : a &&& 0xFE ≠ 0
  · simp [ha] at hf
  · rw [if_neg ha] at hf
    simp only [Option.some.injEq] at hf
    push_neg at ha
    subst hf
    exact ⟨be_u8_done_inv hp, ha⟩

theorem from_utf8_some_inv {bs s : List Nat} (H : from_utf8 bs = some s) :
    s = bs ∧ validUtf8 bs = true := by
  unfold from_utf8 at H
  by_cases hv : validUtf8 bs
  · rw [if_pos hv] at H
    simp only [Option.some.injEq] at H
    exact ⟨H.symm, hv⟩
  · rw [if_neg hv] at H
    exact absurd H (by simp)

theorem parse_eid_done_inv {i r : List Nat} {e : Option (List Nat)}
    (H : parse_eid i = .done r e) :
    ∃ L0 L1 raw, i = L0 :: L1 :: (raw ++ r) ∧ raw.length = L0 * 256 + L1 ∧
      ((L0 * 256 + L1 = 0 ∧ e = none) ∨
       (L0 * 256 + L1 ≠ 0 ∧ e = some raw ∧ validUtf8 raw = true)) := by
  unfold parse_eid at H
  cases h1 : be_u16 i <;> simp [h1] at H
  case done i1 size =>
    cases h2 : takeBytes size i1 <;> simp [h2] at H
    case done i2 raw =>
      obtain ⟨hlen, happ⟩ := takeBytes_done_inv h2
      obtain ⟨b0, b1, hi, hsz⟩ := be_u16_done_inv h1
      subst hsz
      cases hz : b0 * 256 + b1 with
      | zero =>
        rw [hz] at H hlen
        simp at H
        obtain ⟨hir, he⟩ := H
        refine ⟨b0, b1, raw, ?_, by omega, Or.inl ⟨hz ▸ rfl, he.symm⟩⟩
        rw [hi, happ, hir]
      | succ k =>
        rw [hz] at H hlen
        cases h3 : from_utf8 raw <;> rw [h3] at H <;> simp at H
        case some s =>
          obtain ⟨hsr, hv⟩ := from_utf8_some_inv h3
          obtain ⟨hir, he⟩ := H
          refine ⟨b0, b1, raw, ?_, by omega, Or.inr ⟨by omega, by rw [← he, hsr], hv⟩⟩
          rw [hi, happ, hir]

theorem contact_header_done_inv {i r : List Nat} {h : ContactHeader}
    (H : contact_header i = .done r h) :
    ∃ (f k0 k1 s0 s1 s2 s3 s4 s5 s6 s7 t0 t1 t2 t3 t4 t5 t6 t7 L0 L1 : Nat) (raw : List Nat),
      i = HEADER_MAGIC ++ 4 :: f :: k0 :: k1 :: s0 :: s1 :: s2 :: s3 :: s4 :: s5 :: s6 :: s7 ::
          t0 :: t1 :: t2 :: t3 :: t4 :: t5 :: t6 :: t7 :: L0 :: L1 :: (raw ++ r) ∧
      raw.length = L0 * 256 + L1 ∧
      h.version = 4 ∧ h.flags.bits = f ∧ f &&& 0xFE = 0 ∧
      ((L0 * 256 + L1 = 0 ∧ h.eid = none) ∨
       (L0 * 256 + L1 ≠ 0 ∧ h.eid = some raw ∧ validUtf8 raw = true)) := by
  unfold contact_header at H
  cases e1 : tagMagic i <;> simp [e1] at H
  case done i1 o1 =>
    cases e2 : version i1 <;> simp [e2] at H
    case done i2 v =>
      cases e3 : header_flags i2 <;> simp [e3] at H
      case done i3 fl =>
        cases e4 : be_u16 i3 <;> simp [e4] at H
        case done i4 kp =>
          cases e5 : be_u64 i4 <;> simp [e5] at H
          case done i5 sm =>
            cases e6 : be_u64 i5 <;> simp [e6] at H
            case done i6 tm =>
              cases e7 : parse_eid i6 <;> simp [e7] at H
              case done i7 e =>
                obtain ⟨hi7, hh⟩ := H
                obtain ⟨hi1, hv4⟩ := version_done_inv e2
                obtain ⟨hi2, hfb⟩ := header_flags_done_inv e3
                obtain ⟨k0, k1, hi3, _⟩ := be_u16_done_inv e4
                obtain ⟨s0, s1, s2, s3, s4, s5, s6, s7, hi4, _⟩ := be_u64_done_inv e5
                obtain ⟨t0, t1, t2, t3, t4, t5, t6, t7, hi5, _⟩ := be_u64_done_inv e6
                obtain ⟨L0, L1, raw, hi6, hraw, heid⟩ := parse_eid_done_inv e7
                have hi := tagMagic_done_inv e1
                refine ⟨fl.bits, k0, k1, s0, s1, s2, s3, s4, s5, s6, s7,
                  t0, t1, t2, t3, t4, t5, t6, t7, L0, L1, raw, ?_, hraw, ?_, ?_, hfb, ?_⟩
                · rw [hi, hi1, hi2, hi3, hi4, hi5, hi6, hi7]
                · rw [← hh, hv4]
                · rw [← hh]
                · rw [← hh]
                  exact heid

/-! ## Prefix behaviour: truncated buffers are Incomplete, never Error -/

theorem parse_eid_short (L0 L1 : Nat) (w : List Nat) (hw : w.length < L0 * 256 + L1) :
    parse_eid (L0 :: L1 :: w) = .incomplete (.size (2 + (L0 * 256 + L1))) := by
  unfold parse_eid
  simp only [be_u16]
  unfold takeBytes
  rw [if_pos hw]
  simp [neededAdd]
  omega

theorem isIncomplete_ne_err {α : Type} {x : IRes α} (hx : x.isIncomplete = true) :
    x ≠ .err := by
  cases x <;> simp [IRes.isIncomplete] at hx ⊢

/-- Every proper prefix of a well-formed wire message parses as `Incomplete`. -/
theorem prefix_incomplete {fb kp sm tm L0 L1 : Nat} {s : List Nat} (hf : fb &&& 0xFE = 0)
    (hk16 : kp < 2 ^ 16) (hs64 : sm < 2 ^ 64) (ht64 : tm < 2 ^ 64)
    (hsl : s.length = L0 * 256 + L1) (k : Nat) (hk : k < 26 + s.length) :
    (contact_header ((HEADER_MAGIC ++ 4 :: fb :: (u16be kp ++ (u64be sm ++ (u64be tm ++
      (L0 :: L1 :: s))))).take k)).isIncomplete = true := by
  by_cases h26 : k < 26
  · interval_cases k <;>
      simp [contact_header, tagMagic, version, header_flags, mapOpt, be_u8, be_u16, be_u64,
        parse_eid, takeBytes, ContactHeaderFlags.from_bits, hf, neededAdd, HEADER_MAGIC,
        u16be, u64be, IRes.isIncomplete]
  · push_neg at h26
    have hprelen : (HEADER_MAGIC ++ 4 :: fb :: (u16be kp ++ (u64be sm ++ (u64be tm ++
        [L0, L1])))).length = 26 := by
      simp [HEADER_MAGIC, u16be, u64be]
    have hM : HEADER_MAGIC ++ 4 :: fb :: (u16be kp ++ (u64be sm ++ (u64be tm ++
        (L0 :: L1 :: s)))) =
        (HEADER_MAGIC ++ 4 :: fb :: (u16be kp ++ (u64be sm ++ (u64be tm ++ [L0, L1])))) ++ s := by
      simp
    have htake : (HEADER_MAGIC ++ 4 :: fb :: (u16be kp ++ (u64be sm ++ (u64be tm ++
        (L0 :: L1 :: s))))).take k =
        HEADER_MAGIC ++ 4 :: fb :: (u16be kp ++ (u64be sm ++ (u64be tm ++
        (L0 :: L1 :: s.take (k - 26))))) := by
      rw [hM, List.take_append_eq_append_take,
        List.take_of_length_le (by rw [hprelen]; omega), hprelen]
      simp
    rw [htake, contact_header_fixed hf hk16 hs64 ht64,
      parse_eid_short L0 L1 (s.take (k - 26)) (by simp [List.length_take]; omega)]
    simp [IRes.isIncomplete]

/-! ## Claims -/

/-- C1 is false as the claim states it: the public builder accepts an empty
endpoint id (`eid("")` succeeds, storing a present-but-empty id), its
serialization writes length field 0, and deserializing those bytes yields the
header with `endpoint_id = None` — which differs from the original header in
the `eid` field. -/
theorem C1_counterexample :
    (ContactHeader.new.setEid []).1 = .ok () ∧
    contact_header ((ContactHeader.new.setEid []).2.serialize) = .done [] ContactHeader.new ∧
    ContactHeader.new ≠ (ContactHeader.new.setEid []).2 :=
  ⟨rfl, by decide, by decide⟩

/-- C1 (amended): for every header reachable through the public builder whose
endpoint id is not the present-but-empty string, deserializing the bytes
produced by serialize succeeds, reconstructs the original header in every
field, and consumes the entire output (the remaining input is empty). -/
theorem C1_roundtrip (h : ContactHeader) (hb : BuilderBuilt h) (hne : h.eid ≠ some []) :
    contact_header h.serialize = .done [] h := by
  rw [roundtrip_general h hb, if_neg hne]

/-- Witness for `C1_roundtrip` at the spec's concrete scenario header. -/
theorem C1_roundtrip_witness :
    BuilderBuilt specHeader ∧ specHeader.eid ≠ some [] ∧
    contact_header specHeader.serialize = .done [] specHeader :=
  ⟨by decide, by decide, C1_roundtrip specHeader (by decide) (by decide)⟩

/-- C2: the claim (with the spec) requires deserialize to return
`Invalid` on a non-UTF-8 endpoint id and never abort; the code instead reaches
`String::from_utf8(raw_eid.to_vec()).unwrap()`, which panics on this input —
the `panicked` outcome below models that process abort. -/
theorem C2_panics : contact_header badUtf8Msg = .panicked := by decide

/-- C3 is false as the claim states it: setting an empty endpoint id through
the builder succeeds and stores `Some ""` — observable as `some []`, not
`none` — even though the resulting header's encoded length field is 0. -/
theorem C3_counterexample :
    (ContactHeader.new.setEid []).1 = .ok () ∧
    (ContactHeader.new.setEid []).2.eid = some [] ∧
    (ContactHeader.new.setEid []).2.eid ≠ none ∧
    eidFieldLen ((ContactHeader.new.setEid []).2.serialize) = 0 :=
  ⟨rfl, rfl, by decide, by decide⟩

/-- C3 (amended): a header produced by deserialize has `endpoint_id = None`
exactly when the buffer's encoded length field is 0; the eid setter, however,
stores an empty string as present-but-empty instead of normalizing it to
`None` — such a header is indistinguishable from the absent case only on the
wire, where it serializes to exactly the bytes of the `None` header. -/
theorem C3_amended :
    (∀ i r h, contact_header i = .done r h → (h.eid = none ↔ eidFieldLen i = 0)) ∧
    (∀ h : ContactHeader, (h.setEid []).2.eid = some []) ∧
    (∀ h : ContactHeader,
      (h.setEid []).2.serialize = ({ h with eid := none } : ContactHeader).serialize) := by
  refine ⟨?_, ?_, ?_⟩
  · intro i r h H
    obtain ⟨f, k0, k1, s0, s1, s2, s3, s4, s5, s6, s7, t0, t1, t2, t3, t4, t5, t6, t7,
      L0, L1, raw, hi, hraw, -, -, -, heid⟩ := contact_header_done_inv H
    subst hi
    have hfl : eidFieldLen (HEADER_MAGIC ++ 4 :: f :: k0 :: k1 :: s0 :: s1 :: s2 :: s3 :: s4 ::
        s5 :: s6 :: s7 :: t0 :: t1 :: t2 :: t3 :: t4 :: t5 :: t6 :: t7 :: L0 :: L1 ::
        (raw ++ r)) = L0 * 256 + L1 := by
      simp [eidFieldLen, HEADER_MAGIC]
    rw [hfl]
    rcases heid with ⟨hz, he⟩ | ⟨hnz, he, -⟩
    · simp [he, hz]
    · simp [he, hnz]
  · intro h
    simp [ContactHeader.setEid]
  · intro h
    simp [ContactHeader.setEid, ContactHeader.serialize]

/-- Witness for `C3_amended` at the minimal message. -/
theorem C3_amended_witness :
    ContactHeader.new.eid = none ↔ eidFieldLen minimalMsg = 0 :=
  C3_amended.1 minimalMsg [] ContactHeader.new (by decide)

/-- C4 is false as the claim states it: on the minimal 26-byte message, whose
endpoint-id length field is L = 0, deserialize succeeds and consumes all
26 bytes — not 24 + L = 24. -/
theorem C4_counterexample :
    contact_header minimalMsg = .done [] ContactHeader.new ∧
    eidFieldLen minimalMsg = 0 ∧
    minimalMsg.length - (List.length ([] : List Nat)) ≠ 24 + eidFieldLen minimalMsg := by
  decide

/-- C4 (amended): whenever deserialize succeeds on a buffer whose endpoint-id
length field is L, the number of leading bytes consumed (input length minus
remaining length) is 26 + L. -/
theorem C4_consumed (i r : List Nat) (h : ContactHeader)
    (H : contact_header i = .done r h) :
    i.length - r.length = 26 + eidFieldLen i := by
  obtain ⟨f, k0, k1, s0, s1, s2, s3, s4, s5, s6, s7, t0, t1, t2, t3, t4, t5, t6, t7,
    L0, L1, raw, hi, hraw, -, -, -, -⟩ := contact_header_done_inv H
  subst hi
  simp [eidFieldLen, HEADER_MAGIC]
  omega

/-- Witness for `C4_consumed` at the spec's concrete scenario message. -/
theorem C4_consumed_witness :
    specHeader.serialize.length - (List.length ([] : List Nat)) =
      26 + eidFieldLen specHeader.serialize :=
  C4_consumed specHeader.serialize [] specHeader (by decide)

/-- C5: for every header reachable through the public builder, serialize's
output length is exactly 26 plus the endpoint id's byte length (0 if the
endpoint id is absent). -/
theorem C5_length (h : ContactHeader) (hb : BuilderBuilt h) :
    h.serialize.length = 26 + (match h.eid with | some s => s.length | none => 0) := by
  obtain ⟨v, fl, kp, sm, tm, e⟩ := h
  cases e <;> simp [ContactHeader.serialize, HEADER_MAGIC, u16be, u64be]
  omega

/-- Witness for `C5_length` at the spec's concrete scenario header. -/
theorem C5_length_witness :
    specHeader.serialize.length =
      26 + (match specHeader.eid with | some s => s.length | none => 0) :=
  C5_length specHeader (by decide)

/-- C6: any buffer holding at least 4 bytes whose first 4 bytes differ from
the magic constant fails permanently, regardless of the remaining content. -/
theorem C6_bad_magic (i : List Nat) (hlen : 4 ≤ i.length) (hm : i.take 4 ≠ HEADER_MAGIC) :
    contact_header i = .err := by
  have h1 : tagMagic i = .err := by
    unfold tagMagic
    rw [List.take_of_length_le (show HEADER_MAGIC.length ≤ i.length by
      simpa [HEADER_MAGIC] using hlen)]
    exact if_neg (by simpa [HEADER_MAGIC] using hm)
  unfold contact_header
  simp [h1]

/-- Witness for `C6_bad_magic`. -/
theorem C6_bad_magic_witness : contact_header [0, 0, 0, 0] = .err :=
  C6_bad_magic [0, 0, 0, 0] (by decide) (by decide)

/-- C7: a buffer with correct magic whose fifth byte is not 4 fails
permanently, even when the buffer ends immediately after the version byte. -/
theorem C7_bad_version (b : Nat) (rest : List Nat) (hb : b ≠ 4) :
    contact_header (HEADER_MAGIC ++ b :: rest) = .err := by
  unfold contact_header
  simp only [tagMagic_append]
  have hv : version (b :: rest) = .err := by
    simp [version, mapOpt, be_u8, hb]
  simp [hv]

/-- Witness for `C7_bad_version`: the spec's scenario `64 74 6e 21 05`. -/
theorem C7_bad_version_witness : contact_header (HEADER_MAGIC ++ 5 :: []) = .err :=
  C7_bad_version 5 [] (by decide)

/-- C8: a flags byte with any bit other than bit0 set makes deserialize fail
permanently, and — equivalently, enforced at decode time — no header produced
by deserialize ever carries a flag bit outside the known enumeration. -/
theorem C8_flag_strict :
    (∀ f rest, f &&& 0xFE ≠ 0 → contact_header (HEADER_MAGIC ++ 4 :: f :: rest) = .err) ∧
    (∀ i r h, contact_header i = .done r h → h.flags.bits &&& 0xFE = 0) := by
  constructor
  · intro f rest hf
    unfold contact_header
    simp only [tagMagic_append, version_cons]
    have hfl : header_flags (f :: rest) = .err := by
      simp [header_flags, mapOpt, be_u8, ContactHeaderFlags.from_bits, hf]
    simp [hfl]
  · intro i r h H
    obtain ⟨f, k0, k1, s0, s1, s2, s3, s4, s5, s6, s7, t0, t1, t2, t3, t4, t5, t6, t7,
      L0, L1, raw, -, -, -, hfb, hfe, -⟩ := contact_header_done_inv H
    rw [hfb]
    exact hfe

/-- Witness for `C8_flag_strict`: flags byte 2 (bit1 set). -/
theorem C8_flag_strict_witness :
    (2 : Nat) &&& 0xFE ≠ 0 ∧ contact_header (HEADER_MAGIC ++ 4 :: 2 :: []) = .err :=
  ⟨by decide, C8_flag_strict.1 2 [] (by decide)⟩

/-- C10: calling the eid setter with a string of more than 65535 UTF-8 bytes
returns an error and leaves the header unchanged — any previously set
endpoint id is retained. -/
theorem C10_eid_too_long (h : ContactHeader) (s : List Nat) (hs : s.length > 65535) :
    (h.setEid s).1 = .error "eid to long" ∧ (h.setEid s).2 = h := by
  unfold ContactHeader.setEid
  rw [if_pos hs]
  exact ⟨rfl, rfl⟩

/-- Witness for `C10_eid_too_long`: a 65536-byte eid rejected by a header
that already holds an endpoint id, which is retained. -/
theorem C10_eid_too_long_witness :
    longEid.length > 65535 ∧
    ((ContactHeader.new.setEid [0x61]).2.setEid longEid).1 = .error "eid to long" ∧
    ((ContactHeader.new.setEid [0x61]).2.setEid longEid).2 = (ContactHeader.new.setEid [0x61]).2 :=
  ⟨by simp only [longEid, List.length_replicate]; norm_num,
    (C10_eid_too_long (ContactHeader.new.setEid [0x61]).2 longEid (by simp only [longEid, List.length_replicate]; norm_num)).1,
    (C10_eid_too_long (ContactHeader.new.setEid [0x61]).2 longEid (by simp only [longEid, List.length_replicate]; norm_num)).2⟩

/-- C9: for every header reachable through the public builder, with m its
serialization: deserializing any proper prefix of m returns Incomplete,
deserializing all of m returns Complete, and no prefix of m (proper or not)
ever returns Invalid. -/
theorem C9_incremental (h : ContactHeader) (hb : BuilderBuilt h) :
    (∀ k, k < h.serialize.length → (contact_header (h.serialize.take k)).isIncomplete = true) ∧
    (∃ h2, contact_header h.serialize = .done [] h2) ∧
    (∀ k, contact_header (h.serialize.take k) ≠ .err) := by
  have hdone := roundtrip_general h hb
  have hpre : ∀ k, k < h.serialize.length →
      (contact_header (h.serialize.take k)).isIncomplete = true := by
    obtain ⟨v, ⟨fb⟩, kp, sm, tm, e⟩ := h
    obtain ⟨hv, hfb, hk16, hs64, ht64, he⟩ := hb
    dsimp only at hv hfb hk16 hs64 ht64 he
    subst hv
    have hfb2 : fb % 256 = fb := Nat.mod_eq_of_lt (by omega)
    have hf : fb &&& 0xFE = 0 := by interval_cases fb <;> decide
    intro k hk
    cases e with
    | none =>
      simp only [ContactHeader.serialize, hfb2, Nat.reduceMod, List.append_assoc,
        List.singleton_append, List.cons_append, List.nil_append] at hk ⊢
      rw [show u16be 0 = 0 :: 0 :: ([] : List Nat) from rfl] at hk ⊢
      refine prefix_incomplete hf hk16 hs64 ht64 (by simp) k ?_
      have h26 : (HEADER_MAGIC ++ 4 :: fb :: (u16be kp ++ (u64be sm ++ (u64be tm ++
          (0 :: 0 :: ([] : List Nat)))))).length = 26 := by
        simp [HEADER_MAGIC, u16be, u64be]
      omega
    | some s =>
      obtain ⟨hvu, hsl⟩ := he
      simp only [ContactHeader.serialize, hfb2, Nat.reduceMod, List.append_assoc,
        List.singleton_append, List.cons_append, List.nil_append] at hk ⊢
      rw [show u16be s.length = (s.length / 2 ^ 8 % 256) :: (s.length % 256) ::
        ([] : List Nat) from rfl] at hk ⊢
      simp only [List.cons_append, List.nil_append] at hk ⊢
      refine prefix_incomplete hf hk16 hs64 ht64 (by omega) k ?_
      have hlen : (HEADER_MAGIC ++ 4 :: fb :: (u16be kp ++ (u64be sm ++ (u64be tm ++
          ((s.length / 2 ^ 8 % 256) :: (s.length % 256) :: s))))).length = 26 + s.length := by
        simp [HEADER_MAGIC, u16be, u64be]
        omega
      omega
  refine ⟨hpre, ⟨_, hdone⟩, ?_⟩
  intro k
  by_cases hk : k < h.serialize.length
  · exact isIncomplete_ne_err (hpre k hk)
  · push_neg at hk
    rw [List.take_of_length_le hk, hdone]
    simp

/-- Witness for `C9_incremental` at the default header `new()`. -/
theorem C9_incremental_witness :
    BuilderBuilt ContactHeader.new ∧
    ((contact_header (ContactHeader.new.serialize.take 10)).isIncomplete = true ∧
      contact_header (ContactHeader.new.serialize.take 10) ≠ .err) ∧
    (∃ h2, contact_header ContactHeader.new.serialize = .done [] h2) :=
  ⟨by decide,
    ⟨(C9_incremental ContactHeader.new (by decide)).1 10 (by decide),
      (C9_incremental ContactHeader.new (by decide)).2.2 10⟩,
    (C9_incremental ContactHeader.new (by decide)).2.1⟩

end Tcpcl
